import Mathlib

/-!
Shallow embedding of the better-moodle settings engine and storage migration.

Sources:
* src/redesign.user.js — the Setting class hierarchy (Boolean, String,
  Number, Slider, Select), the settings registry, disabled-state
  recomputation, slider datalists, and the settings import handler.
* src/src/migrateStorage.ts — the versioned storage migration runner.

JavaScript numbers are modelled as integers (Int); NaN is the
distinguished value JSVal.nan.  Fractional slider arithmetic is modelled
over the rationals.  DOM string coercion uses an exact decimal
printer and parser (integer literals; floats are out of model scope).
-/

/-- A JavaScript value as stored in GM storage or held by a DOM widget. -/
inductive JSVal where
  | b (value : Bool)
  | n (value : Int)
  | s (value : String)
  | list (value : List String)
  | undefined
  | nan
deriving DecidableEq

/-- Little-endian decimal digits of a natural number, with explicit fuel
(the number itself is always enough fuel). Agrees with Nat.digits 10. -/
def natDigitsAux : Nat → Nat → List Nat
  | 0, _ => []
  | f + 1, n => if n = 0 then [] else n % 10 :: natDigitsAux f (n / 10)

/-- Little-endian decimal digits of a natural number. -/
def natDigits (n : Nat) : List Nat := natDigitsAux n n

theorem natDigitsAux_eq_digits : ∀ (f n : Nat), n ≤ f → natDigitsAux f n = Nat.digits 10 n := by
  intro f
  induction f with
  | zero =>
    intro n hn
    interval_cases n
    simp [natDigitsAux]
  | succ f ih =>
    intro n hn
    by_cases h0 : n = 0
    · simp [natDigitsAux, h0]
    · have hpos : 0 < n := Nat.pos_of_ne_zero h0
      rw [natDigitsAux, if_neg h0, Nat.digits_def' (by norm_num : 1 < 10) hpos]
      have hdiv : n / 10 ≤ f := by
        have : n / 10 < n := Nat.div_lt_self hpos (by norm_num)
        omega
      rw [ih _ hdiv]

theorem natDigits_eq_digits (n : Nat) : natDigits n = Nat.digits 10 n :=
  natDigitsAux_eq_digits n n le_rfl

/-- The ASCII character of a decimal digit. -/
def digitChar (d : Nat) : Char := Char.ofNat (48 + d)

/-- Decimal rendering of a natural number (JS String coercion). -/
def natToString (n : Nat) : String :=
  if n = 0 then "0" else String.mk (((natDigits n).map digitChar).reverse)

/-- Decimal rendering of an integer (JS String coercion of a number). -/
def intToString (k : Int) : String :=
  if k < 0 then "-" ++ natToString k.natAbs else natToString k.natAbs

/-- Parse one decimal digit character. -/
def charDigit? (c : Char) : Option Nat :=
  if 48 ≤ c.toNat ∧ c.toNat ≤ 57 then some (c.toNat - 48) else none

/-- Parse every character of a list as a decimal digit. -/
def digitsOfChars? : List Char → Option (List Nat)
  | [] => some []
  | c :: cs =>
    match charDigit? c, digitsOfChars? cs with
    | some d, some ds => some (d :: ds)
    | _, _ => none

/-- Parse a nonempty all-digit character list as a natural number. -/
def parseNatChars? (cs : List Char) : Option Nat :=
  if cs = [] then none
  else (digitsOfChars? cs).map fun ds => Nat.ofDigits 10 ds.reverse

/-- Parse an optionally-signed decimal integer literal. -/
def parseInt? (str : String) : Option Int :=
  if str.data.headD ' ' = '-' then
    Option.map (fun n : Nat => -(n : Int)) (parseNatChars? str.data.tail)
  else Option.map (fun n : Nat => (n : Int)) (parseNatChars? str.data)

/-- JS Number(string) on integer literals: the empty string is 0 and an
unparseable string is NaN. -/
def jsStringToNumber (str : String) : JSVal :=
  if str = "" then .n 0 else ((parseInt? str).map JSVal.n).getD .nan

theorem charDigit?_digitChar {d : Nat} (hd : d < 10) : charDigit? (digitChar d) = some d := by
  interval_cases d <;> decide

theorem digitChar_ne_dash {d : Nat} (hd : d < 10) : digitChar d ≠ '-' := by
  interval_cases d <;> decide

theorem digitsOfChars?_map_digitChar :
    ∀ (ds : List Nat), (∀ d ∈ ds, d < 10) → digitsOfChars? (ds.map digitChar) = some ds := by
  intro ds
  induction ds with
  | nil => intro _; rfl
  | cons d ds ih =>
    intro h
    have hd : d < 10 := h d (List.mem_cons_self d ds)
    have hds : ∀ x ∈ ds, x < 10 := fun x hx => h x (List.mem_cons_of_mem d hx)
    simp [digitsOfChars?, charDigit?_digitChar hd, ih hds]

theorem natToString_data_digits (n : Nat) (hn : n ≠ 0) :
    (natToString n).data = ((natDigits n).reverse).map digitChar := by
  simp [natToString, hn, List.map_reverse]

theorem natDigits_ne_nil {n : Nat} (hn : n ≠ 0) : natDigits n ≠ [] := by
  rw [natDigits_eq_digits]
  exact Nat.digits_ne_nil_iff_ne_zero.mpr hn

theorem natDigits_lt_ten {n d : Nat} (hd : d ∈ natDigits n) : d < 10 := by
  rw [natDigits_eq_digits] at hd
  exact Nat.digits_lt_base (by norm_num) hd

theorem parseNatChars?_natToString (n : Nat) :
    parseNatChars? (natToString n).data = some n := by
  by_cases h0 : n = 0
  · subst h0; decide
  · rw [natToString_data_digits n h0]
    have hne : (natDigits n).reverse.map digitChar ≠ [] := by
      simp [natDigits_ne_nil h0]
    rw [parseNatChars?, if_neg hne,
      digitsOfChars?_map_digitChar ((natDigits n).reverse)
        (fun d hd => natDigits_lt_ten (List.mem_reverse.mp hd))]
    simp [natDigits_eq_digits, Nat.ofDigits_digits]

theorem natToString_chars_ne_dash (n : Nat) : ∀ c ∈ (natToString n).data, c ≠ '-' := by
  by_cases h0 : n = 0
  · subst h0; decide
  · rw [natToString_data_digits n h0]
    intro c hc
    obtain ⟨d, hd, rfl⟩ := List.mem_map.mp hc
    exact digitChar_ne_dash (natDigits_lt_ten (List.mem_reverse.mp hd))

theorem natToString_data_ne_nil (n : Nat) : (natToString n).data ≠ [] := by
  by_cases h0 : n = 0
  · subst h0; decide
  · rw [natToString_data_digits n h0]
    simp [natDigits_ne_nil h0]

theorem intToString_data_neg (k : Int) (hk : k < 0) :
    (intToString k).data = '-' :: (natToString k.natAbs).data := by
  simp [intToString, hk, String.data_append]

theorem intToString_data_nonneg (k : Int) (hk : ¬k < 0) :
    (intToString k).data = (natToString k.natAbs).data := by
  simp [intToString, hk]

theorem parseInt?_intToString (k : Int) : parseInt? (intToString k) = some k := by
  by_cases hk : k < 0
  · rw [parseInt?, intToString_data_neg k hk]
    have hcond : ('-' :: (natToString k.natAbs).data).headD ' ' = '-' := rfl
    rw [if_pos hcond, List.tail_cons, parseNatChars?_natToString k.natAbs]
    simp only [Option.map_some', Option.some.injEq]
    rcases Int.natAbs_eq k with h | h <;> omega
  · rw [parseInt?, intToString_data_nonneg k hk]
    rcases hcs : (natToString k.natAbs).data with _ | ⟨c, cs⟩
    · exact absurd hcs (natToString_data_ne_nil k.natAbs)
    · have hcne : c ≠ '-' := by
        apply natToString_chars_ne_dash k.natAbs
        rw [hcs]; exact List.mem_cons_self c cs
      simp only [List.headD_cons, if_neg hcne]
      rw [← hcs, parseNatChars?_natToString k.natAbs]
      simp only [Option.map_some', Option.some.injEq]
      rcases Int.natAbs_eq k with h | h <;> omega

theorem intToString_ne_empty (k : Int) : intToString k ≠ "" := by
  intro h
  by_cases hk : k < 0
  · have hd := intToString_data_neg k hk
    rw [h] at hd
    exact List.noConfusion
      (show ([] : List Char) = '-' :: (natToString k.natAbs).data from hd)
  · have hd := intToString_data_nonneg k hk
    rw [h] at hd
    exact natToString_data_ne_nil k.natAbs
      (show (natToString k.natAbs).data = [] from hd.symm)

theorem jsStringToNumber_intToString (k : Int) : jsStringToNumber (intToString k) = .n k := by
  rw [jsStringToNumber, if_neg (intToString_ne_empty k), parseInt?_intToString k]
  rfl

/-- JS String(value) coercion, as performed when a value is assigned to a
DOM input's value property. -/
def toDOMString : JSVal → String
  | .b true => "true"
  | .b false => "false"
  | .n k => intToString k
  | .s t => t
  | .list l => String.intercalate "," l
  | .undefined => "undefined"
  | .nan => "NaN"

/-- JS ToBoolean (truthiness). -/
def jsTruthy : JSVal → Bool
  | .b v => v
  | .n k => k ≠ 0
  | .s t => t ≠ ""
  | .list _ => true
  | .undefined => false
  | .nan => false

/-- JS ToNumber; none models NaN. -/
def jsToNumber (v : JSVal) : Option Int :=
  match v with
  | .n k => some k
  | .b true => some 1
  | .b false => some 0
  | .nan => none
  | .undefined => none
  | _ =>
    match jsStringToNumber (toDOMString v) with
    | .n k => some k
    | _ => none

/-- JS comparison value < k (false when the left side is NaN). -/
def jsLt (v : JSVal) (k : Int) : Bool :=
  match jsToNumber v with
  | some m => m < k
  | none => false

/-- JS property access value.length (undefined on non-strings/arrays). -/
def jsLength : JSVal → JSVal
  | .s t => .n t.length
  | .list l => .n l.length
  | _ => .undefined

/-- The userscript manager's key-value store: an association list of keys
to JS values (one entry per key). -/
abbrev Store := List (String × JSVal)

/-- First value stored under a key, if any. -/
def lookupStore : Store → String → Option JSVal
  | [], _ => none
  | e :: s, key => if e.1 = key then some e.2 else lookupStore s key

/-- GM_getValue: stored value with a fallback default. -/
def GM_getValue (s : Store) (key : String) (fallback : JSVal) : JSVal :=
  (lookupStore s key).getD fallback

/-- GM_deleteValue: remove all entries under a key. -/
def GM_deleteValue : Store → String → Store
  | [], _ => []
  | e :: s, key => if e.1 = key then GM_deleteValue s key else e :: GM_deleteValue s key

/-- GM_setValue: overwrite the value stored under a key. -/
def GM_setValue (s : Store) (key : String) (v : JSVal) : Store :=
  GM_deleteValue s key ++ [(key, v)]

theorem lookupStore_delete_same (s : Store) (key : String) :
    lookupStore (GM_deleteValue s key) key = none := by
  induction s with
  | nil => rfl
  | cons e s ih =>
    by_cases he : e.1 = key
    · simp [GM_deleteValue, he, ih]
    · simp [GM_deleteValue, lookupStore, he, ih]

theorem lookupStore_delete_ne (s : Store) {key key' : String} (h : key' ≠ key) :
    lookupStore (GM_deleteValue s key) key' = lookupStore s key' := by
  induction s with
  | nil => rfl
  | cons e s ih =>
    by_cases he : e.1 = key
    · simp [GM_deleteValue, lookupStore, he, Ne.symm h, ih]
    · by_cases he' : e.1 = key'
      · simp [GM_deleteValue, lookupStore, he, he', h, ih]
      · simp [GM_deleteValue, lookupStore, he, he', ih]

theorem lookupStore_append (s t : Store) (key : String) :
    lookupStore (s ++ t) key =
      ((lookupStore s key).orElse fun _ => lookupStore t key) := by
  induction s with
  | nil => rfl
  | cons e s ih =>
    by_cases he : e.1 = key
    · simp [lookupStore, he, Option.orElse]
    · simp [lookupStore, he, ih]

theorem lookupStore_set_same (s : Store) (key : String) (v : JSVal) :
    lookupStore (GM_setValue s key v) key = some v := by
  rw [GM_setValue, lookupStore_append, lookupStore_delete_same]
  simp [lookupStore]

theorem lookupStore_set_ne (s : Store) {key key' : String} (v : JSVal) (h : key' ≠ key) :
    lookupStore (GM_setValue s key v) key' = lookupStore s key' := by
  rw [GM_setValue, lookupStore_append, lookupStore_delete_ne s h]
  have : lookupStore [(key, v)] key' = none := by
    rw [lookupStore, if_neg (show ¬(key, v).1 = key' from Ne.symm h)]
    rfl
  rw [this]
  cases lookupStore s key' <;> rfl

namespace Redesign

/-- redesign.user.js getSettingKey: id => PREFIX("settings." + id), with
PREFIX(str) = "better-moodle-" + str. -/
def getSettingKey (id : String) : String := "better-moodle-" ++ ("settings." ++ id)

/-- Which Setting subclass a descriptor belongs to. -/
inductive SettingKind where
  | bool
  | str
  | num
  | slider
  | select
deriving DecidableEq

/-- The state of one Setting instance: its identity plus the DOM widget
state it owns.  The base class owns an input element (value, checked and
disabled properties); SelectSetting additionally owns a select element
with its option list. -/
structure Setting where
  kind : SettingKind
  id : String
  defaultValue : JSVal
  inputElValue : String
  inputElChecked : Bool
  inputElDisabled : Bool
  selectElValue : String
  selectElOptions : List String
  selectElDisabled : Bool

namespace Setting

/-- Setting.settingKey getter. -/
def settingKey (st : Setting) : String := Redesign.getSettingKey st.id

/-- Setting.value getter: GM_getValue(this.settingKey, this.default).
SelectSetting's value getter delegates to this one unchanged. -/
def value (st : Setting) (s : Store) : JSVal :=
  GM_getValue s st.settingKey st.defaultValue

/-- Assignment to an HTMLSelectElement's value property: selects the
option with that value, or clears the selection. -/
def selectAssign (options : List String) (t : String) : String :=
  if t ∈ options then t else ""

/-- Setting.value setter: assigns the raw value to the widget's value
property (a string in the DOM) and persists it via GM_setValue.
SelectSetting overrides it to assign to its select element instead. -/
def setValue (st : Setting) (s : Store) (x : JSVal) : Setting × Store :=
  match st.kind with
  | .select =>
    ({ st with selectElValue := selectAssign st.selectElOptions (toDOMString x) },
      GM_setValue s st.settingKey x)
  | _ => ({ st with inputElValue := toDOMString x }, GM_setValue s st.settingKey x)

/-- Setting.inputValue getter. Base class: the input's value string;
BooleanSetting: the checkbox's checked state; NumberSetting (and
SliderSetting): Number(this.input.value); SelectSetting: the select's
value string. -/
def inputValue (st : Setting) : JSVal :=
  match st.kind with
  | .bool => .b st.inputElChecked
  | .str => .s st.inputElValue
  | .num | .slider => jsStringToNumber st.inputElValue
  | .select => .s st.selectElValue

/-- Setting.saveInput: this.value = this.input.value (the raw string).
BooleanSetting stores the checked state, SelectSetting the select value. -/
def saveInput (st : Setting) (s : Store) : Setting × Store :=
  match st.kind with
  | .bool => st.setValue s (.b st.inputElChecked)
  | .select => st.setValue s (.s st.selectElValue)
  | _ => st.setValue s (.s st.inputElValue)

/-- Setting.resetInput: copy the stored value back into the widget.
BooleanSetting assigns to checked (boolean coercion), SelectSetting to
the select element.  SliderSetting additionally redispatches an input
event to refresh its output bubble, which is outside the modelled
state. -/
def resetInput (st : Setting) (s : Store) : Setting :=
  match st.kind with
  | .bool => { st with inputElChecked := jsTruthy (st.value s) }
  | .select =>
    { st with selectElValue := selectAssign st.selectElOptions (toDOMString (st.value s)) }
  | _ => { st with inputElValue := toDOMString (st.value s) }

/-- A live user interaction with the widget: ticking the checkbox or
entering text / picking an option.  This is the browser's doing, not the
descriptor's: it mutates only the widget, never the store. -/
inductive Edit where
  | check (v : Bool)
  | text (t : String)

/-- Apply a user edit to the widget owned by the descriptor. -/
def userEdit (st : Setting) : Edit → Setting
  | .check v => { st with inputElChecked := v }
  | .text t =>
    match st.kind with
    | .select => { st with selectElValue := t }
    | _ => { st with inputElValue := t }

/-- Does a JS value belong to the descriptor's value type (for a select:
is it one of the resolved option values)? -/
def accepts (st : Setting) (x : JSVal) : Bool :=
  match st.kind, x with
  | .bool, .b _ => true
  | .str, .s _ => true
  | .num, .n _ => true
  | .slider, .n _ => true
  | .select, .s t => decide (t ∈ st.selectElOptions)
  | _, _ => false

end Setting

/-- A disabled predicate: a function of the settingsById record, as
installed by setDisabledFn.  It is kept next to the Setting in the
registry entry (rather than inside the Setting record) because it takes
the whole record of settings as input. -/
abbrev DisabledFn := (String → Option Setting) → Bool

/-- The default disabled predicate: () => false. -/
def defaultDisabledFn : DisabledFn := fun _ => false

/-- Setting.toggleDisabled(settings): evaluate the predicate, apply the
result to the widget's disabled attribute (SelectSetting also disables
its select element) and return it. -/
def Setting.toggleDisabled (st : Setting) (fn : DisabledFn)
    (settings : String → Option Setting) : Setting × Bool :=
  let disabled := fn settings
  let base := { st with inputElDisabled := disabled }
  match st.kind with
  | .select => ({ base with selectElDisabled := disabled }, disabled)
  | _ => (base, disabled)

/-- One entry of the SETTINGS array: a section-heading string or a
Setting (with its disabled predicate). -/
inductive RegEntry where
  | heading (text : String)
  | setting (st : Setting) (disabledFn : DisabledFn)

/-- settingsById: the id-to-descriptor record derived from the SETTINGS
array, skipping heading strings.  In JS this record aliases the live
Setting objects; here it is recomputed from the current entries. -/
def settingsById (entries : List RegEntry) : String → Option Setting := fun i =>
  entries.findSome? fun e =>
    match e with
    | .heading _ => none
    | .setting st _ => if st.id = i then some st else none

/-- One iteration of the forEach in updateDisabledStates: skip headings,
otherwise call toggleDisabled with the (live) settingsById record. -/
def updateDisabledStep (entries : List RegEntry) (i : Nat) : List RegEntry :=
  match entries[i]? with
  | some (.setting st fn) =>
    entries.set i (.setting (st.toggleDisabled fn (settingsById entries)).1 fn)
  | _ => entries

/-- updateDisabledStates: SETTINGS.forEach(setting =>
setting.toggleDisabled(settingsById)), skipping heading strings. -/
def updateDisabledStates (entries : List RegEntry) : List RegEntry :=
  (List.range entries.length).foldl updateDisabledStep entries

end Redesign

namespace MigrateStorage

def STORAGE_VERSION_KEY : String := "storageVersion"

def CURRENT_STORAGE_VERSION : Int := 2

/-- Modelled from the spec: getSettingKey from src/_lib/helpers (the
helpers module is not part of the provided sources).  Per the spec's
derived-key-namespace contract, a descriptor's storage-version-2 key
carries the settings. segment under the script-scoped namespace and is
distinct from the legacy pre-namespacing better-moodle- names that the
migration reads (compare the literal v2 keys storageVersion and
seenSettings in migrateStorage.ts). -/
def getSettingKey (id : String) : String := "settings." ++ id

def STORAGE_V2_SEEN_SETTINGS_KEY : String := "seenSettings"

def STORAGE_V2_LANGUAGE_KEY : String := getSettingKey "general.language"

/-- Modelled from the spec: isNewInstallation from src/_lib/helpers (not
part of the provided sources).  Per the spec, a brand-new installation
is one whose store is entirely empty. -/
def isNewInstallation (s : Store) : Bool := s.isEmpty

/-- getAndDelete: read a key (with optional default) and delete it. -/
def getAndDelete (s : Store) (key : String) (defaultValue : JSVal) : JSVal × Store :=
  (GM_getValue s key defaultValue, GM_deleteValue s key)

/-- The migrateStorage IIFE.  The first guard is JS strict equality
(oldStorageVersion === CURRENT_STORAGE_VERSION) — modelled by JSVal
equality — or isNewInstallation; the step guard oldStorageVersion < 2 is
a coercing JS comparison. -/
def migrateStorage (s : Store) : Store :=
  let oldStorageVersion := GM_getValue s STORAGE_VERSION_KEY (.n 0)
  if oldStorageVersion = .n CURRENT_STORAGE_VERSION ∨ isNewInstallation s then s
  else
    let s2 :=
      if jsLt oldStorageVersion 2 then
        let seen := getAndDelete s "better-moodle-seen-settings" (.list [])
        let s3 :=
          if jsTruthy (jsLength seen.1) then
            GM_setValue seen.2 STORAGE_V2_SEEN_SETTINGS_KEY seen.1
          else seen.2
        let lang := getAndDelete s3 "better-moodle-settings.general.language" .undefined
        if jsTruthy lang.1 then GM_setValue lang.2 STORAGE_V2_LANGUAGE_KEY lang.1
        else lang.2
      else s
    GM_setValue s2 STORAGE_VERSION_KEY (.n CURRENT_STORAGE_VERSION)

end MigrateStorage

namespace Redesign

/-- Enough fuel to run a JS counting loop from cur to hi by positive Δ. -/
def rangeFuel (cur hi Δ : ℚ) : Nat := (⌈(hi - cur) / Δ⌉ + 1).toNat

/-- The body of for (let c = cur; c <= hi; c += Δ), collecting c. -/
def rangeLoopAux (f : Nat) (cur hi Δ : ℚ) : List ℚ :=
  if f = 0 then []
  else if cur ≤ hi then cur :: rangeLoopAux (f - 1) (cur + Δ) hi Δ else []
termination_by f
decreasing_by omega

/-- The values taken by the JS loop for (let c = lo; c <= hi; c += Δ).
For Δ ≤ 0 such a JS loop would not terminate; no such call occurs. -/
def rangeLoop (lo hi Δ : ℚ) : List ℚ :=
  if 0 < Δ then rangeLoopAux (rangeFuel lo hi Δ) lo hi Δ else []

/-- SliderSetting constructor, tick datalist: when step is truthy, steps
= (max - min + 1) / step and the loop runs from min to max in increments
of (max - min + 1) / steps, one option element per value. -/
def sliderTickValues (lo hi step : ℚ) : List ℚ :=
  if step ≠ 0 then
    let steps := (hi - lo + 1) / step
    rangeLoop lo hi ((hi - lo + 1) / steps)
  else []

/-- SliderSetting constructor: labelCount = Math.max(2, Math.min(10,
labels)) — minimum 2, maximum 10 labels. -/
def sliderLabelCount (labels : ℚ) : ℚ := max 2 (min 10 labels)

/-- SliderSetting constructor, label datalist: the loop runs from min to
max in increments of (max - min) / (labelCount - 1), one option element
per value. -/
def sliderLabelValues (lo hi labels : ℚ) : List ℚ :=
  rangeLoop lo hi ((hi - lo) / (sliderLabelCount labels - 1))

/-- The load handler of the settings-import file input: parse the file
content as JSON (the browser builtin JSON.parse is a parameter; none
models a thrown SyntaxError, which aborts the handler), then write every
parsed entry back via GM_setValue.  The page reload that follows is
outside the store model. -/
def importOnLoad (parseJson : String → Option (List (String × JSVal)))
    (content : String) (s : Store) : Store :=
  match parseJson content with
  | none => s
  | some config => config.foldl (fun acc kv => GM_setValue acc kv.1 kv.2) s

end Redesign

namespace Redesign

theorem rangeLoopAux_spec (hi Δ : ℚ) (hΔ : 0 < Δ) :
    ∀ (f : Nat) (cur : ℚ), (hi - cur) / Δ < (f : ℚ) →
      rangeLoopAux f cur hi Δ =
        (List.range (if cur ≤ hi then (⌊(hi - cur) / Δ⌋).toNat + 1 else 0)).map
          fun k : Nat => cur + (k : ℚ) * Δ := by
  intro f
  induction f with
  | zero =>
    intro cur hf
    have hcur : ¬cur ≤ hi := by
      intro hle
      have hge : 0 ≤ (hi - cur) / Δ := div_nonneg (by linarith) hΔ.le
      norm_num at hf
      linarith
    rw [rangeLoopAux]
    simp [hcur]
  | succ f ih =>
    intro cur hf
    rw [rangeLoopAux, if_neg (Nat.succ_ne_zero f)]
    by_cases hcur : cur ≤ hi
    · rw [if_pos hcur, if_pos hcur, Nat.add_sub_cancel]
      have hx : (hi - (cur + Δ)) / Δ = (hi - cur) / Δ - 1 := by
        have h9 : hi - (cur + Δ) = hi - cur - Δ := by ring
        rw [h9, sub_div, div_self hΔ.ne']
      have hfx : (hi - (cur + Δ)) / Δ < (f : ℚ) := by
        push_cast at hf
        rw [hx]
        linarith
      rw [ih (cur + Δ) hfx]
      by_cases hnext : cur + Δ ≤ hi
      · rw [if_pos hnext]
        have h1le : (1 : ℚ) ≤ (hi - cur) / Δ := by
          rw [le_div_iff hΔ]
          linarith
        have hfl1 : 1 ≤ ⌊(hi - cur) / Δ⌋ := by
          apply Int.le_floor.mpr
          exact_mod_cast h1le
        have hsub : ⌊(hi - (cur + Δ)) / Δ⌋ = ⌊(hi - cur) / Δ⌋ - 1 := by
          rw [hx, Int.floor_sub_one]
        rw [hsub]
        have hcount : (⌊(hi - cur) / Δ⌋ - 1).toNat + 1 = (⌊(hi - cur) / Δ⌋).toNat := by
          omega
        rw [hcount, List.range_succ_eq_map, List.map_cons, List.map_map]
        congr 1
        · norm_num
        · apply List.map_congr_left
          intro k _
          simp only [Function.comp_apply]
          push_cast
          ring
      · rw [if_neg hnext]
        have hlt1 : (hi - cur) / Δ < 1 := by
          rw [div_lt_iff hΔ]
          linarith
        have hge0 : 0 ≤ (hi - cur) / Δ := div_nonneg (by linarith) hΔ.le
        have hfl0 : ⌊(hi - cur) / Δ⌋ = 0 :=
          Int.floor_eq_zero_iff.mpr (Set.mem_Ico.mpr ⟨hge0, hlt1⟩)
        rw [hfl0]
        norm_num [List.range_succ]
    · rw [if_neg hcur, if_neg hcur]
      simp

theorem lt_rangeFuel (cur hi Δ : ℚ) : (hi - cur) / Δ < (rangeFuel cur hi Δ : ℚ) := by
  have h1 : (hi - cur) / Δ ≤ (⌈(hi - cur) / Δ⌉ : ℚ) := Int.le_ceil _
  have h2 : (⌈(hi - cur) / Δ⌉ + 1 : ℤ) ≤ (((⌈(hi - cur) / Δ⌉ + 1).toNat : ℤ)) :=
    Int.self_le_toNat _
  have h3 : ((⌈(hi - cur) / Δ⌉ + 1 : ℤ) : ℚ) ≤ (((⌈(hi - cur) / Δ⌉ + 1).toNat : ℤ) : ℚ) :=
    Int.cast_le.mpr h2
  rw [rangeFuel]
  push_cast at h3
  push_cast
  linarith

theorem rangeLoop_spec (lo hi Δ : ℚ) (hΔ : 0 < Δ) (hlo : lo ≤ hi) :
    rangeLoop lo hi Δ =
      (List.range ((⌊(hi - lo) / Δ⌋).toNat + 1)).map fun k : Nat => lo + (k : ℚ) * Δ := by
  rw [rangeLoop, if_pos hΔ,
    rangeLoopAux_spec hi Δ hΔ (rangeFuel lo hi Δ) lo (lt_rangeFuel lo hi Δ), if_pos hlo]

end Redesign

namespace Redesign

/-- Claim C8: for a slider with min=1, max=10, step=1 and a requested
label count of 10, the tick datalist contains exactly the ten option
values 1..10; and for any requested label count the label datalist
contains between 2 and 10 entries, evenly spaced from min in increments
of (max - min) / (labelCount - 1). -/
theorem c8_slider_datalists :
    sliderTickValues 1 10 1 = [1, 2, 3, 4, 5, 6, 7, 8, 9, 10] ∧
    ∀ labels : ℚ,
      2 ≤ (sliderLabelValues 1 10 labels).length ∧
      (sliderLabelValues 1 10 labels).length ≤ 10 ∧
      sliderLabelValues 1 10 labels =
        (List.range (sliderLabelValues 1 10 labels).length).map
          fun k : Nat => 1 + (k : ℚ) * ((10 - 1) / (sliderLabelCount labels - 1)) := by
  constructor
  · have h0 : sliderTickValues 1 10 1 = rangeLoop 1 10 ((10 - 1 + 1) / ((10 - 1 + 1) / 1)) :=
      by rw [sliderTickValues, if_pos (by norm_num : (1 : ℚ) ≠ 0)]
    have hΔ : ((10 : ℚ) - 1 + 1) / ((10 - 1 + 1) / 1) = 1 := by norm_num
    rw [h0, hΔ, rangeLoop_spec 1 10 1 (by norm_num) (by norm_num)]
    have h9 : ((10 : ℚ) - 1) / 1 = 9 := by norm_num
    rw [h9, show ⌊(9 : ℚ)⌋ = 9 from by norm_num,
      show ((9 : ℤ).toNat + 1) = 10 from by decide,
      show List.range 10 = [0, 1, 2, 3, 4, 5, 6, 7, 8, 9] from by decide]
    norm_num
  · intro labels
    have hL2 : (2 : ℚ) ≤ sliderLabelCount labels := le_max_left _ _
    have hL10 : sliderLabelCount labels ≤ 10 := max_le (by norm_num) (min_le_left _ _)
    have hL1 : (0 : ℚ) < sliderLabelCount labels - 1 := by linarith
    have hΔ : (0 : ℚ) < (10 - 1) / (sliderLabelCount labels - 1) :=
      div_pos (by norm_num) hL1
    have hx : ((10 : ℚ) - 1) / ((10 - 1) / (sliderLabelCount labels - 1)) =
        sliderLabelCount labels - 1 := by
      rw [div_div_eq_mul_div, mul_comm, mul_div_assoc,
        div_self (by norm_num : ((10 : ℚ) - 1) ≠ 0), mul_one]
    have hspec : sliderLabelValues 1 10 labels =
        (List.range ((⌊sliderLabelCount labels - 1⌋).toNat + 1)).map
          fun k : Nat => 1 + (k : ℚ) * ((10 - 1) / (sliderLabelCount labels - 1)) := by
      rw [sliderLabelValues, rangeLoop_spec _ _ _ hΔ (by norm_num), hx]
    have hfl1 : 1 ≤ ⌊sliderLabelCount labels - 1⌋ := by
      apply Int.le_floor.mpr
      push_cast
      linarith
    have hfl9 : ⌊sliderLabelCount labels - 1⌋ ≤ 9 := by
      have h99 : ⌊sliderLabelCount labels - 1⌋ ≤ ⌊(9 : ℚ)⌋ :=
        Int.floor_le_floor (by linarith)
      simpa using h99
    have hlen : (sliderLabelValues 1 10 labels).length =
        (⌊sliderLabelCount labels - 1⌋).toNat + 1 := by
      rw [hspec]
      simp
    refine ⟨?_, ?_, ?_⟩
    · rw [hlen]; omega
    · rw [hlen]; omega
    · rw [hlen]
      exact hspec

end Redesign

namespace Redesign

theorem Setting.value_setValue (st : Setting) (s : Store) (x : JSVal) :
    (st.setValue s x).1.value (st.setValue s x).2 = x := by
  cases hk : st.kind <;>
    simp [Setting.setValue, hk, Setting.value, Setting.settingKey, GM_getValue,
      lookupStore_set_same]

theorem Setting.value_userEdit (st : Setting) (e : Setting.Edit) (s : Store) :
    (st.userEdit e).value s = st.value s := by
  cases e <;> cases hk : st.kind <;>
    simp [Setting.userEdit, hk, Setting.value, Setting.settingKey]

theorem jsToNumber_str (t : String) :
    jsToNumber (.s t) = jsToNumber (jsStringToNumber t) := by
  simp only [jsToNumber, toDOMString]
  by_cases h0 : t = ""
  · simp [jsStringToNumber, h0]
  · cases hp : parseInt? t with
    | some k => simp [jsStringToNumber, h0, hp]
    | none => simp [jsStringToNumber, h0, hp]

/-- The widget state of new BooleanSetting("general.bookmarkManager",
false), constructed against an empty store: the base constructor writes
String(this.value) into input.value, the subclass sets checked =
this.value. -/
def bookmarkManagerSetting : Setting :=
  { kind := .bool
    id := "general.bookmarkManager"
    defaultValue := .b false
    inputElValue := "false"
    inputElChecked := false
    inputElDisabled := false
    selectElValue := ""
    selectElOptions := []
    selectElDisabled := false }

/-- The widget state of new SliderSetting("darkmode.brightness", 100, 0,
150, 1, 7), constructed against an empty store. -/
def brightnessSetting : Setting :=
  { kind := .slider
    id := "darkmode.brightness"
    defaultValue := .n 100
    inputElValue := "100"
    inputElChecked := false
    inputElDisabled := false
    selectElValue := ""
    selectElOptions := []
    selectElDisabled := false }

/-- The widget state of new SelectSetting("general.language", "auto",
["auto", ...]) with its option promise resolved. -/
def languageSetting : Setting :=
  { kind := .select
    id := "general.language"
    defaultValue := .s "auto"
    inputElValue := "auto"
    inputElChecked := false
    inputElDisabled := false
    selectElValue := "auto"
    selectElOptions := ["auto", "de", "en"]
    selectElDisabled := false }

/-- Claim C1 (amended): after the programmatic write value = x the value
getter returns x for every variant, and inputValue returns x for the
String, Number and Slider variants, and for a Select when x is among the
resolved options; for the Boolean variant the write does not touch the
checkbox's checked property, so inputValue still returns the old checked
state. -/
theorem c1_value_write (st : Setting) (s : Store) (x : JSVal)
    (hx : st.accepts x = true) :
    ((st.setValue s x).1.value (st.setValue s x).2 = x) ∧
    (st.kind ≠ .bool → (st.setValue s x).1.inputValue = x) ∧
    (st.kind = .bool → (st.setValue s x).1.inputValue = .b st.inputElChecked) := by
  refine ⟨Setting.value_setValue st s x, ?_, ?_⟩
  · intro hne
    cases hk : st.kind <;> cases x <;>
      simp_all [Setting.accepts, Setting.setValue, Setting.inputValue, toDOMString,
        jsStringToNumber_intToString, Setting.selectAssign]
  · intro hb
    cases x <;> simp_all [Setting.accepts, Setting.setValue, Setting.inputValue]

/-- Claim C1 (witness): the select descriptor general.language, written
to "de" programmatically: both getters return "de". -/
theorem c1_value_write_witness :
    (languageSetting.setValue [] (.s "de")).1.value
        (languageSetting.setValue [] (.s "de")).2 = .s "de" ∧
    (languageSetting.setValue [] (.s "de")).1.inputValue = .s "de" := by
  have h := c1_value_write languageSetting [] (.s "de") (by decide)
  exact ⟨h.1, h.2.1 (by decide)⟩

/-- Claim C1 (counterexample): for the Boolean descriptor
general.bookmarkManager, freshly constructed (checkbox unchecked)
against an empty store, writing value = true makes the value getter
return true but inputValue still returns false — the claimed
synchronization of the displayed value fails for the Boolean variant. -/
theorem c1_boolean_counterexample :
    (bookmarkManagerSetting.setValue [] (.b true)).1.value
        (bookmarkManagerSetting.setValue [] (.b true)).2 = .b true ∧
    (bookmarkManagerSetting.setValue [] (.b true)).1.inputValue ≠ .b true := by
  decide

/-- Claim C5 (amended): saveInput flushes the pending value: for the
Boolean, String and Select variants the subsequent value getter returns
exactly the pre-save inputValue; for the Number and Slider variants the
raw widget text is what gets stored, so the subsequent value getter
returns that string, whose numeric coercion equals the pre-save
inputValue.  And after any widget edit without a save, resetInput
restores inputValue to the pre-edit stored value, provided the stored
value is of the descriptor's type. -/
theorem c5_save_reset (st : Setting) (s : Store) (e : Setting.Edit) :
    ((st.kind = .bool ∨ st.kind = .str ∨ st.kind = .select) →
      (st.saveInput s).1.value (st.saveInput s).2 = st.inputValue) ∧
    ((st.kind = .num ∨ st.kind = .slider) →
      (st.saveInput s).1.value (st.saveInput s).2 = .s st.inputElValue ∧
      jsToNumber ((st.saveInput s).1.value (st.saveInput s).2) =
        jsToNumber st.inputValue) ∧
    (st.accepts (st.value s) = true →
      ((st.userEdit e).resetInput s).inputValue = st.value s) := by
  refine ⟨?_, ?_, ?_⟩
  · rintro (hk | hk | hk) <;>
      simp [Setting.saveInput, hk, Setting.value_setValue, Setting.inputValue]
  · rintro (hk | hk) <;>
      · constructor
        · simp [Setting.saveInput, hk, Setting.value_setValue]
        · rw [show (st.saveInput s).1.value (st.saveInput s).2 = .s st.inputElValue by
            simp [Setting.saveInput, hk, Setting.value_setValue]]
          simp [Setting.inputValue, hk, jsToNumber_str]
  · intro hacc
    cases e <;> cases hk : st.kind <;> cases hv : st.value s <;>
      simp_all [Setting.accepts, Setting.userEdit, Setting.resetInput, Setting.inputValue,
        Setting.value, Setting.settingKey, Setting.selectAssign, toDOMString, jsTruthy,
        jsStringToNumber_intToString, GM_getValue]

/-- Claim C5 (witness): for the Boolean descriptor
general.bookmarkManager, save returns the pre-save inputValue, and an
edit followed by resetInput restores inputValue to the stored value. -/
theorem c5_save_reset_witness :
    (bookmarkManagerSetting.saveInput []).1.value
        (bookmarkManagerSetting.saveInput []).2 = bookmarkManagerSetting.inputValue ∧
    ((bookmarkManagerSetting.userEdit (.check true)).resetInput []).inputValue =
      bookmarkManagerSetting.value [] :=
  ⟨(c5_save_reset bookmarkManagerSetting [] (.check true)).1 (Or.inl rfl),
    (c5_save_reset bookmarkManagerSetting [] (.check true)).2.2 (by decide)⟩

/-- Claim C5 (counterexample): the Slider descriptor darkmode.brightness
with pending text "42": saveInput stores the raw string, so the value
getter afterwards returns the string "42", not the pre-save inputValue
42 — the flushed value differs from the pre-save inputValue. -/
theorem c5_slider_counterexample :
    (brightnessSetting.userEdit (.text "42")).inputValue = .n 42 ∧
    ((brightnessSetting.userEdit (.text "42")).saveInput []).1.value
        ((brightnessSetting.userEdit (.text "42")).saveInput []).2 = .s "42" ∧
    ((brightnessSetting.userEdit (.text "42")).saveInput []).1.value
        ((brightnessSetting.userEdit (.text "42")).saveInput []).2 ≠
      (brightnessSetting.userEdit (.text "42")).inputValue := by
  decide

/-- Claim C6: a live widget edit leaves the stored value unchanged — the
value getter reads only the store — while inputValue returns the edited
value, type-coerced per variant (checkbox state for Boolean, numeric
parse for Number and Slider, the raw string otherwise). -/
theorem c6_edit_frame (st : Setting) (s : Store) (e : Setting.Edit) :
    (st.userEdit e).value s = st.value s ∧
    (∀ v, e = .check v → st.kind = .bool → (st.userEdit e).inputValue = .b v) ∧
    (∀ t, e = .text t → st.kind ≠ .bool →
      (st.userEdit e).inputValue =
        if st.kind = .num ∨ st.kind = .slider then jsStringToNumber t else .s t) := by
  refine ⟨Setting.value_userEdit st e s, ?_, ?_⟩
  · rintro v rfl hb
    simp [Setting.userEdit, Setting.inputValue, hb]
  · rintro t rfl hb
    cases hk : st.kind <;> simp_all [Setting.userEdit, Setting.inputValue]

/-- Claim C6 (witness): editing the darkmode.brightness slider to "7"
leaves the stored value untouched and makes inputValue the numeric parse
of "7". -/
theorem c6_edit_frame_witness :
    (brightnessSetting.userEdit (.text "7")).value [] = brightnessSetting.value [] ∧
    (brightnessSetting.userEdit (.text "7")).inputValue = jsStringToNumber "7" := by
  have h := c6_edit_frame brightnessSetting [] (.text "7")
  refine ⟨h.1, ?_⟩
  have h2 := h.2.2 "7" rfl (by decide)
  simpa using h2

/-- A Boolean descriptor with default false as used in the C7 scenario,
with the given pending (checked) state. -/
def boolRegSetting (i : String) (checked : Bool) : Setting :=
  { kind := .bool
    id := i
    defaultValue := .b false
    inputElValue := "false"
    inputElChecked := checked
    inputElDisabled := false
    selectElValue := ""
    selectElOptions := []
    selectElDisabled := false }

/-- The dependency predicate s => !s['A'].inputValue installed on B via
setDisabledFn; in the modelled scenario the id "A" is always present. -/
def notADisabledFn : DisabledFn := fun settings =>
  match settings "A" with
  | some a => !(jsTruthy a.inputValue)
  | none => false

/-- Claim C7: with descriptors A (boolean, default false, pending value
toggled to bv) and B carrying the predicate s => !s['A'].inputValue, one
recomputation pass sets B's disabled flag to !bv, in whichever order the
two descriptors are registered, and A's flag comes out identically in
both orders. -/
theorem c7_disabled_recompute (bv : Bool) :
    ((settingsById (updateDisabledStates
        [.setting (boolRegSetting "A" bv) defaultDisabledFn,
         .setting (boolRegSetting "B" false) notADisabledFn]) "B").map
      Setting.inputElDisabled = some (!bv)) ∧
    ((settingsById (updateDisabledStates
        [.setting (boolRegSetting "B" false) notADisabledFn,
         .setting (boolRegSetting "A" bv) defaultDisabledFn]) "B").map
      Setting.inputElDisabled = some (!bv)) ∧
    ((settingsById (updateDisabledStates
        [.setting (boolRegSetting "A" bv) defaultDisabledFn,
         .setting (boolRegSetting "B" false) notADisabledFn]) "A").map
      Setting.inputElDisabled =
      (settingsById (updateDisabledStates
        [.setting (boolRegSetting "B" false) notADisabledFn,
         .setting (boolRegSetting "A" bv) defaultDisabledFn]) "A").map
      Setting.inputElDisabled) := by
  cases bv <;> exact ⟨rfl, rfl, rfl⟩

end Redesign

namespace MigrateStorage

/-- Claim C2 (amended): on a fresh installation (entirely empty store)
the migration runner returns before looking anything up or writing
anything: the store is left unchanged, so no legacy key is read, no key
is created — and in particular storageVersion is NOT persisted: it
remains absent and reads as 0, not as the current version. -/
theorem c2_fresh_install (s : Store) (h : isNewInstallation s = true) :
    migrateStorage s = s := by
  rw [migrateStorage]
  simp [h]

/-- Claim C2 (witness): the runner applied to the empty store leaves it
empty. -/
theorem c2_fresh_install_witness : migrateStorage ([] : Store) = [] :=
  c2_fresh_install [] rfl

/-- Claim C2 (counterexample): after running the migration runner on an
entirely empty store, storageVersion does NOT equal the current version:
the runner returned early without persisting it, so the key is absent
and reads as 0. -/
theorem c2_version_counterexample :
    migrateStorage ([] : Store) = [] ∧
    lookupStore (migrateStorage ([] : Store)) STORAGE_VERSION_KEY = none ∧
    GM_getValue (migrateStorage ([] : Store)) STORAGE_VERSION_KEY (.n 0) ≠
      .n CURRENT_STORAGE_VERSION := by
  decide

/-- The pre-migration store of claim C3: a legacy seen-settings list
["a","b"] and a legacy language value "de", storageVersion absent. -/
def legacyStore : Store :=
  [("better-moodle-seen-settings", .list ["a", "b"]),
   ("better-moodle-settings.general.language", .s "de")]

/-- Claim C3: migrating the legacy store moves the seen-settings list
and the language value to their new namespaced keys, removes the legacy
keys and leaves storageVersion at 2. -/
theorem c3_legacy_migration :
    lookupStore (migrateStorage legacyStore) STORAGE_V2_SEEN_SETTINGS_KEY =
      some (.list ["a", "b"]) ∧
    lookupStore (migrateStorage legacyStore) STORAGE_V2_LANGUAGE_KEY = some (.s "de") ∧
    lookupStore (migrateStorage legacyStore) "better-moodle-seen-settings" = none ∧
    lookupStore (migrateStorage legacyStore) "better-moodle-settings.general.language" =
      none ∧
    lookupStore (migrateStorage legacyStore) STORAGE_VERSION_KEY = some (.n 2) := by
  decide

/-- Claim C4: once a run has left storageVersion at the current version,
the next run reads that version and returns its input store unchanged:
the second run performs no writes or deletes. -/
theorem c4_idempotent (s : Store)
    (h : GM_getValue (migrateStorage s) STORAGE_VERSION_KEY (.n 0) =
      .n CURRENT_STORAGE_VERSION) :
    migrateStorage (migrateStorage s) = migrateStorage s := by
  generalize hs : migrateStorage s = t at h ⊢
  rw [migrateStorage]
  simp [h]

/-- Claim C4 (witness): a second run after migrating a one-key legacy
store changes nothing. -/
theorem c4_idempotent_witness :
    migrateStorage (migrateStorage [("better-moodle-seen-settings", JSVal.list ["x"])]) =
      migrateStorage [("better-moodle-seen-settings", JSVal.list ["x"])] :=
  c4_idempotent [("better-moodle-seen-settings", JSVal.list ["x"])] (by decide)

end MigrateStorage

theorem lookupStore_foldl_set_of_not_mem (config : List (String × JSVal)) (s : Store)
    (k : String) (hk : k ∉ config.map Prod.fst) :
    lookupStore (config.foldl (fun acc kv => GM_setValue acc kv.1 kv.2) s) k =
      lookupStore s k := by
  induction config generalizing s with
  | nil => rfl
  | cons kv rest ih =>
    simp only [List.map_cons, List.mem_cons, not_or] at hk
    rw [List.foldl_cons, ih _ hk.2, lookupStore_set_ne _ _ hk.1]

theorem lookupStore_foldl_set_of_mem (config : List (String × JSVal)) (s : Store)
    (hnd : (config.map Prod.fst).Nodup) (k : String) (v : JSVal)
    (hmem : (k, v) ∈ config) :
    lookupStore (config.foldl (fun acc kv => GM_setValue acc kv.1 kv.2) s) k = some v := by
  induction config generalizing s with
  | nil => cases hmem
  | cons kv rest ih =>
    rw [List.foldl_cons]
    rcases List.mem_cons.mp hmem with heq | hmem'
    · rw [← heq]
      have hknotin : k ∉ rest.map Prod.fst := by
        rw [List.map_cons, List.nodup_cons] at hnd
        rw [← heq] at hnd
        exact hnd.1
      rw [lookupStore_foldl_set_of_not_mem rest _ k hknotin]
      exact lookupStore_set_same s k v
    · exact ih (GM_setValue s kv.1 kv.2) (by
        rw [List.map_cons, List.nodup_cons] at hnd
        exact hnd.2) hmem'

namespace Redesign

/-- Claim C9: importing a file whose content does not parse as JSON
writes nothing — the store is unchanged; once parsing succeeds, every
parsed key-value pair is written back verbatim and no other key is
touched. -/
theorem c9_import (parseJson : String → Option (List (String × JSVal)))
    (content : String) (s : Store) :
    (parseJson content = none → importOnLoad parseJson content s = s) ∧
    (∀ config, parseJson content = some config →
      (∀ k, k ∉ config.map Prod.fst →
        lookupStore (importOnLoad parseJson content s) k = lookupStore s k) ∧
      ((config.map Prod.fst).Nodup → ∀ k v, (k, v) ∈ config →
        lookupStore (importOnLoad parseJson content s) k = some v)) := by
  constructor
  · intro h
    simp [importOnLoad, h]
  · intro config h
    constructor
    · intro k hk
      simp only [importOnLoad, h]
      exact lookupStore_foldl_set_of_not_mem config s k hk
    · intro hnd k v hmem
      simp only [importOnLoad, h]
      exact lookupStore_foldl_set_of_mem config s hnd k v hmem

/-- Claim C9 (witness): a parse failure leaves a one-key store intact; a
parsed single-entry object becomes readable verbatim. -/
theorem c9_import_witness :
    importOnLoad (fun _ => none) "not json" [("k0", JSVal.n 5)] = [("k0", JSVal.n 5)] ∧
    lookupStore (importOnLoad (fun _ => some [("alpha", JSVal.n 1)]) "x" []) "alpha" =
      some (JSVal.n 1) :=
  ⟨(c9_import (fun _ => none) "not json" [("k0", JSVal.n 5)]).1 rfl,
    ((c9_import (fun _ => some [("alpha", JSVal.n 1)]) "x" []).2 [("alpha", JSVal.n 1)]
      rfl).2 (by decide) "alpha" (JSVal.n 1) (by decide)⟩

end Redesign

namespace MigrateStorage

/-- Proof-side name for the store after the seen-settings half of the
v2 migration step. -/
def seenStep (s : Store) : Store :=
  if jsTruthy (jsLength (GM_getValue s "better-moodle-seen-settings" (.list []))) = true then
    GM_setValue (GM_deleteValue s "better-moodle-seen-settings")
      STORAGE_V2_SEEN_SETTINGS_KEY (GM_getValue s "better-moodle-seen-settings" (.list []))
  else GM_deleteValue s "better-moodle-seen-settings"

/-- Proof-side name for the store after the whole v2 migration step
body (before the version write). -/
def v2Step (s : Store) : Store :=
  if jsTruthy (GM_getValue (seenStep s) "better-moodle-settings.general.language" .undefined) =
      true then
    GM_setValue (GM_deleteValue (seenStep s) "better-moodle-settings.general.language")
      STORAGE_V2_LANGUAGE_KEY
      (GM_getValue (seenStep s) "better-moodle-settings.general.language" .undefined)
  else GM_deleteValue (seenStep s) "better-moodle-settings.general.language"

theorem migrateStorage_eq_v2 (s : Store)
    (hcond : ¬(GM_getValue s STORAGE_VERSION_KEY (.n 0) = .n CURRENT_STORAGE_VERSION ∨
      isNewInstallation s = true))
    (hlt : jsLt (GM_getValue s STORAGE_VERSION_KEY (.n 0)) 2 = true) :
    migrateStorage s =
      GM_setValue (v2Step s) STORAGE_VERSION_KEY (.n CURRENT_STORAGE_VERSION) := by
  simp only [migrateStorage, getAndDelete, seenStep, v2Step]
  rw [if_neg hcond, if_pos hlt]

theorem getValue_lang_seenStep (s : Store) :
    GM_getValue (seenStep s) "better-moodle-settings.general.language" .undefined =
      GM_getValue s "better-moodle-settings.general.language" .undefined := by
  rw [seenStep]
  split
  · rw [GM_getValue, lookupStore_set_ne _ _ (by decide),
      lookupStore_delete_ne _ (by decide)]
    rfl
  · rw [GM_getValue, lookupStore_delete_ne _ (by decide)]
    rfl

theorem seenStep_legacy_none (s : Store) :
    lookupStore (seenStep s) "better-moodle-seen-settings" = none := by
  rw [seenStep]
  split
  · rw [lookupStore_set_ne _ _ (by decide)]
    exact lookupStore_delete_same s _
  · exact lookupStore_delete_same s _

theorem seenStep_lookup_langV2 (s : Store) :
    lookupStore (seenStep s) STORAGE_V2_LANGUAGE_KEY =
      lookupStore s STORAGE_V2_LANGUAGE_KEY := by
  rw [seenStep]
  split
  · rw [lookupStore_set_ne _ _ (by decide), lookupStore_delete_ne _ (by decide)]
  · rw [lookupStore_delete_ne _ (by decide)]

/-- Claim C10: when the v2 migration step actually runs (store not
empty, stored version a number below 2), both legacy keys end up
deleted; the seenSettings replacement key is written (with the legacy
value) exactly when the legacy list is non-empty, and the language
replacement key exactly when the legacy language value is truthy
(present and non-empty); otherwise each replacement key is left
untouched — the legacy key simply disappears. -/
theorem c10_migration_guards (s : Store) (v : Int)
    (hver : GM_getValue s STORAGE_VERSION_KEY (.n 0) = .n v) (hv : v < 2)
    (hnew : isNewInstallation s = false) :
    lookupStore (migrateStorage s) "better-moodle-seen-settings" = none ∧
    lookupStore (migrateStorage s) "better-moodle-settings.general.language" = none ∧
    (jsTruthy (jsLength (GM_getValue s "better-moodle-seen-settings" (.list []))) = false →
      lookupStore (migrateStorage s) STORAGE_V2_SEEN_SETTINGS_KEY =
        lookupStore s STORAGE_V2_SEEN_SETTINGS_KEY) ∧
    (jsTruthy (jsLength (GM_getValue s "better-moodle-seen-settings" (.list []))) = true →
      lookupStore (migrateStorage s) STORAGE_V2_SEEN_SETTINGS_KEY =
        some (GM_getValue s "better-moodle-seen-settings" (.list []))) ∧
    (jsTruthy (GM_getValue s "better-moodle-settings.general.language" .undefined) = false →
      lookupStore (migrateStorage s) STORAGE_V2_LANGUAGE_KEY =
        lookupStore s STORAGE_V2_LANGUAGE_KEY) ∧
    (jsTruthy (GM_getValue s "better-moodle-settings.general.language" .undefined) = true →
      lookupStore (migrateStorage s) STORAGE_V2_LANGUAGE_KEY =
        some (GM_getValue s "better-moodle-settings.general.language" .undefined)) := by
  have hcond : ¬(GM_getValue s STORAGE_VERSION_KEY (.n 0) = .n CURRENT_STORAGE_VERSION ∨
      isNewInstallation s = true) := by
    rintro (hc | hc)
    · rw [hver] at hc
      injection hc with h2
      have hc2 : CURRENT_STORAGE_VERSION = (2 : Int) := rfl
      omega
    · rw [hnew] at hc
      exact Bool.noConfusion hc
  have hlt : jsLt (GM_getValue s STORAGE_VERSION_KEY (.n 0)) 2 = true := by
    rw [hver]
    simp [jsLt, jsToNumber, hv]
  have hm := migrateStorage_eq_v2 s hcond hlt
  have hlang := getValue_lang_seenStep s
  refine ⟨?_, ?_, ?_, ?_, ?_, ?_⟩
  · rw [hm, lookupStore_set_ne _ _ (by decide), v2Step]
    split
    · rw [lookupStore_set_ne _ _ (by decide), lookupStore_delete_ne _ (by decide)]
      exact seenStep_legacy_none s
    · rw [lookupStore_delete_ne _ (by decide)]
      exact seenStep_legacy_none s
  · rw [hm, lookupStore_set_ne _ _ (by decide), v2Step]
    split
    · rw [lookupStore_set_ne _ _ (by decide)]
      exact lookupStore_delete_same _ _
    · exact lookupStore_delete_same _ _
  · intro h3
    rw [hm, lookupStore_set_ne _ _ (by decide), v2Step]
    split
    · rw [lookupStore_set_ne _ _ (by decide), lookupStore_delete_ne _ (by decide),
        seenStep, if_neg (by simp [h3]), lookupStore_delete_ne _ (by decide)]
    · rw [lookupStore_delete_ne _ (by decide), seenStep, if_neg (by simp [h3]),
        lookupStore_delete_ne _ (by decide)]
  · intro h4
    rw [hm, lookupStore_set_ne _ _ (by decide), v2Step]
    split
    · rw [lookupStore_set_ne _ _ (by decide), lookupStore_delete_ne _ (by decide),
        seenStep, if_pos h4, lookupStore_set_same]
    · rw [lookupStore_delete_ne _ (by decide), seenStep, if_pos h4, lookupStore_set_same]
  · intro h5
    rw [hm, lookupStore_set_ne _ _ (by decide), v2Step, hlang, if_neg (by simp [h5]),
      lookupStore_delete_ne _ (by decide)]
    exact seenStep_lookup_langV2 s
  · intro h6
    rw [hm, lookupStore_set_ne _ _ (by decide), v2Step, hlang, if_pos h6,
      lookupStore_set_same]

/-- Claim C10 (witness): a store with a non-empty legacy seen-settings
list and no language key: the legacy key disappears and the v2 key
holds the list. -/
theorem c10_migration_guards_witness :
    lookupStore (migrateStorage [("better-moodle-seen-settings", JSVal.list ["x"])])
      "better-moodle-seen-settings" = none ∧
    lookupStore (migrateStorage [("better-moodle-seen-settings", JSVal.list ["x"])])
      STORAGE_V2_SEEN_SETTINGS_KEY = some (JSVal.list ["x"]) := by
  have h := c10_migration_guards [("better-moodle-seen-settings", JSVal.list ["x"])] 0
    (by decide) (by decide) (by decide)
  exact ⟨h.1, h.2.2.2.1 (by decide)⟩

end MigrateStorage
